import Mathlib

/-!
Shallow embedding of the host-side JIT loader (`src/host/p4jit`):
the device-session memory operations (`runtime/device_manager.py`),
the argument marshaller (`runtime/smart_args.py`), the per-call flow
(`runtime/remote_function.py`), the loaded-function handle
(`p4jit.py`), the slot-layout metadata (`toolchain/metadata_generator.py`)
and the wrapper-build validation (`toolchain/wrapper_builder.py`).

Machine integers are modelled as `Nat`/`Int` with explicit reduction
modulo powers of two where the Python `struct` packing wraps or range-checks.
Bytes are `Nat`s below 256 in little-endian lists.
-/

namespace P4Jit

/-- Little-endian byte encoding: `toLEBytes n k` is the `k`-byte
little-endian encoding of `n % 256^k` (each byte is `< 256`). -/
def toLEBytes : Nat → Nat → List Nat
  | _, 0 => []
  | n, k + 1 => (n % 256) :: toLEBytes (n / 256) k

/-- Little-endian byte decoding (inverse of `toLEBytes` on its range). -/
def fromLEBytes : List Nat → Nat
  | [] => 0
  | b :: rest => b % 256 + 256 * fromLEBytes rest

/-! ## Python string helpers

`smart_args.py` and `metadata_generator.py` classify C type names with
`str.replace`, `str.strip` and the `in` substring test.  We model those
over `List Char` so everything reduces in the kernel. -/

/-- Fuel-driven scanner behind `eraseAllSub` (structural recursion on
the fuel so that the kernel can evaluate it; one unit of fuel is spent
per character of remaining input, so `fuel = s.length` always
suffices). -/
def eraseAllSubGo : Nat → List Char → List Char → List Char
  | 0, _, _ => []
  | _ + 1, _, [] => []
  | fuel + 1, needle, c :: rest =>
    if needle ≠ [] ∧ needle.isPrefixOf (c :: rest) then
      eraseAllSubGo fuel needle ((c :: rest).drop needle.length)
    else
      c :: eraseAllSubGo fuel needle rest

/-- Python `s.replace` with an empty replacement: erase every non-overlapping
occurrence of `needle`, scanning left to right. -/
def eraseAllSub (needle s : List Char) : List Char :=
  eraseAllSubGo s.length needle s

/-- Python default `str.strip` whitespace class (the characters that
occur in the type strings of the repository). -/
def isPyWS (c : Char) : Bool := c = ' ' || c = '\t' || c = '\n' || c = '\r'

/-- Python `s.strip()`. -/
def pyStrip (s : List Char) : List Char :=
  ((s.dropWhile isPyWS).reverse.dropWhile isPyWS).reverse

/-- Python `needle in hay` substring test. -/
def containsSub (needle hay : String) : Bool :=
  (List.range (hay.toList.length + 1)).any
    (fun i => needle.toList.isPrefixOf (hay.toList.drop i))

/-! ## 64-bit type classification

`smart_args.SmartArgs._64BIT_TYPES` and the identical set in
`metadata_generator.py`. -/

/-- The `_64BIT_TYPES` set shared by `smart_args.py` and
`metadata_generator.py`. -/
def sixtyFourBitTypeNames : List (List Char) :=
  ["int64_t".toList, "uint64_t".toList, "int64".toList, "uint64".toList,
   "double".toList, "long long".toList, "unsigned long long".toList,
   "long long int".toList, "unsigned long long int".toList]

/-- `_is_64bit_type`: strip `const`/`volatile` and surrounding
whitespace, then test membership in the 64-bit type set. -/
def is64BitType (t : String) : Bool :=
  sixtyFourBitTypeNames.contains
    (pyStrip (eraseAllSub "volatile".toList (eraseAllSub "const".toList t.toList)))

/-! ## Signatures and the slot layout (`metadata_generator.py`) -/

/-- One parsed parameter of a signature: `{name, type, category}` with
`category ∈ {"value", "pointer"}`. -/
structure Param where
  name : String
  type : String
  category : String
deriving DecidableEq, Repr

/-- A parsed signature: `{name, return_type, parameters}`. -/
structure Signature where
  name : String
  return_type : String
  parameters : List Param
deriving DecidableEq, Repr

/-- Slot count of one parameter, from
`MetadataGenerator.calculate_addresses`: pointers take 1 slot, 64-bit
values 2 slots, everything else 1 slot. -/
def paramSlotCount (p : Param) : Nat :=
  if p.category = "pointer" then 1
  else if is64BitType p.type then 2
  else 1

/-- Slot count of the return value (`metadata_generator.py` line 59). -/
def returnSlotCount (rt : String) : Nat :=
  if is64BitType rt then 2 else 1

/-- The slot index of the return value computed by
`MetadataGenerator.calculate_addresses`: `args_array_size -
return_slot_count` (Python int subtraction, hence `Int`). -/
def returnSlot (argsArraySize : Nat) (rt : String) : Int :=
  (argsArraySize : Int) - (returnSlotCount rt : Int)

/-- Cumulative slot demand of a signature: the sum of the parameter
slot widths plus the slot width of the return value (the quantity the
`SignatureTooWide` sentences of the spec are about). -/
def totalSlotCount (params : List Param) (rt : String) : Nat :=
  (params.map paramSlotCount).sum + returnSlotCount rt

/-- The signature validation in `WrapperBuilder.build_with_wrapper`
(lines 54-64): `max_args = args_array_size - 1`; the build is rejected
iff `len(parameters) > max_args`.  `true` means the build proceeds. -/
def buildAccepts (argsArraySize : Nat) (params : List Param) : Bool :=
  decide ((params.length : Int) ≤ (argsArraySize : Int) - 1)

/-! ## Device manager (`runtime/device_manager.py`) -/

/-- One record of the allocation table
(`DeviceManager.allocations[addr] = {size, caps, align}`). -/
structure AllocInfo where
  size : Nat
  caps : Nat
  align : Nat
deriving DecidableEq, Repr

/-- The fields of `DeviceManager.device_info` relevant to memory
transfers (parsed from GET_INFO in `get_info`). -/
structure DeviceInfo where
  protocolMajor : Nat
  protocolMinor : Nat
  maxPayload : Nat
  cacheLine : Nat
  maxAllocations : Nat
deriving DecidableEq, Repr

/-- The device-manager state consulted by the memory operations: the
allocation table (association list keyed by address, keys unique as in
a Python dict) and the optional device info. -/
structure DMState where
  allocations : List (Nat × AllocInfo)
  deviceInfo : Option DeviceInfo
deriving DecidableEq, Repr

/-- `CHUNK_SIZE = 64 * 1024 - 8` (`device_manager.py` line 29). -/
def CHUNK_SIZE : Nat := 64 * 1024 - 8

/-- The per-record test of the bounds-validation loop in
`write_memory`/`read_memory`: `start <= address and end_addr <=
alloc_end`. -/
def rangeInAlloc (start : Nat) (info : AllocInfo) (addr len : Nat) : Bool :=
  decide (start ≤ addr) && decide (addr + len ≤ start + info.size)

/-- The bounds-validation loop: some allocation record wholly contains
the target range. -/
def boundsValid (st : DMState) (addr len : Nat) : Bool :=
  st.allocations.any (fun p => rangeInAlloc p.1 p.2 addr len)

/-- One WRITE_MEM frame: target address and chunk payload. -/
structure WriteFrame where
  addr : Nat
  data : List Nat
deriving DecidableEq, Repr

/-- Error outcomes of the device-manager memory operations. -/
inductive DMError
  | boundsViolation
  | unknownAllocation
  | deviceError
deriving DecidableEq, Repr

/-- The chunking loop of `write_memory` (structural recursion on a fuel
that one chunk of at least one byte is consumed per step, so `fuel =
data.length` always suffices): emit `data[offset : offset+CHUNK_SIZE]`
at `address + offset` until the payload is exhausted. -/
def writeChunksGo : Nat → Nat → List Nat → List WriteFrame
  | 0, _, _ => []
  | _ + 1, _, [] => []
  | fuel + 1, addr, d :: rest =>
    WriteFrame.mk addr ((d :: rest).take CHUNK_SIZE) ::
      writeChunksGo fuel (addr + ((d :: rest).take CHUNK_SIZE).length)
        ((d :: rest).drop CHUNK_SIZE)

/-- The WRITE_MEM frames produced by the chunking loop of
`DeviceManager.write_memory` for a given start address and payload. -/
def writeChunks (addr : Nat) (data : List Nat) : List WriteFrame :=
  writeChunksGo data.length addr data

/-- `DeviceManager.write_memory(address, data, skip_bounds)`: unless
bounds are skipped, require the target range to lie inside one
allocation record, else fail with the bounds violation
(`PermissionError`) before any frame is sent; otherwise send one
WRITE_MEM frame per chunk.  Returns the frames sent and the error, if
any. -/
def write_memory (st : DMState) (addr : Nat) (data : List Nat) (skipBounds : Bool) :
    List WriteFrame × Option DMError :=
  if !skipBounds && !boundsValid st addr data.length then
    ([], some DMError.boundsViolation)
  else
    (writeChunks addr data, none)

/-- `DeviceManager.read_memory(address, size, skip_bounds)`: same
bounds rule, then a single READ_MEM request `(address, size)`.
Returns the request issued (if any) and the error, if any. -/
def read_memory (st : DMState) (addr size : Nat) (skipBounds : Bool) :
    Option (Nat × Nat) × Option DMError :=
  if !skipBounds && !boundsValid st addr size then
    (none, some DMError.boundsViolation)
  else
    (some (addr, size), none)

/-- Look up an address in the allocation table (`address in
self.allocations` on a Python dict). -/
def lookupAlloc (st : DMState) (addr : Nat) : Option AllocInfo :=
  (st.allocations.find? (fun p => p.1 = addr)).map (fun p => p.2)

/-- `DeviceManager.free(address)`: if the address is not tracked,
raise (`UnknownAllocation`) without sending anything; otherwise send
FREE and delete the record only afterwards — the FREE exchange is
modelled by `sendOk` (`false` meaning `_send_packet` raised), and on a
raise the `del` line is never reached, so the record is retained.
Returns the new state, the FREE commands sent, and the error, if
any. -/
def dmFree (st : DMState) (sendOk : Bool) (addr : Nat) :
    DMState × List Nat × Option DMError :=
  if (lookupAlloc st addr).isNone then
    (st, [], some DMError.unknownAllocation)
  else if sendOk then
    ({ st with allocations := st.allocations.filter (fun p => p.1 ≠ addr) },
      [addr], none)
  else
    (st, [addr], some DMError.deviceError)

/-! ## Argument marshaller (`runtime/smart_args.py`) -/

/-- Packing errors of `SmartArgs.pack` and its helpers: arity mismatch,
type/dtype mismatch (`TypeError`), `struct.pack` range errors
(`struct.error`), and device failures raised by `allocate` or
`write_memory` during pointer handling. -/
inductive PackError
  | arityMismatch
  | typeMismatch
  | structRange
  | allocFailed
  | writeFailed
  | execFailed
  | readFailed
deriving DecidableEq, Repr

/-- The packed encoding of one argument.  Integer encodings are
concrete little-endian bytes; IEEE-754 float encodings (from
`struct.pack` formats `f`/`d`) are kept symbolic, carrying the
argument value. -/
inductive ValBytes
  | raw (bs : List Nat)
  | f32enc (v : Int)
  | f64enc (v : Int)
deriving DecidableEq, Repr

/-- `SmartArgs._handle_value(arg, param_type)` for an integer-valued
host scalar `arg` (the value arguments used by this repository; NumPy scalars
convert through Python `int`/`float` exactly as modelled):
64-bit types dispatch on `double`/unsigned/signed with formats
`<d`/`<Q`/`<q` (`<Q` masks with `0xFFFFFFFFFFFFFFFF` first, `<q`
range-checks), 32-bit types dispatch on `float` vs the signed `<i`
format, which range-checks `-2^31 <= v < 2^31`. -/
def handle_value (paramType : String) (arg : Int) : Except PackError ValBytes :=
  if is64BitType paramType then
    if containsSub "double" paramType then
      Except.ok (ValBytes.f64enc arg)
    else if containsSub "unsigned" paramType || containsSub "uint" paramType then
      Except.ok (ValBytes.raw (toLEBytes (arg % (2 ^ 64 : Int)).toNat 8))
    else if decide (-(2 ^ 63 : Int) ≤ arg) && decide (arg < 2 ^ 63) then
      Except.ok (ValBytes.raw (toLEBytes (arg % (2 ^ 64 : Int)).toNat 8))
    else
      Except.error PackError.structRange
  else if containsSub "float" paramType then
    Except.ok (ValBytes.f32enc arg)
  else if decide (-(2 ^ 31 : Int) ≤ arg) && decide (arg < 2 ^ 31) then
    Except.ok (ValBytes.raw (toLEBytes (arg % (2 ^ 32 : Int)).toNat 4))
  else
    Except.error PackError.structRange

/-- A typed return value as produced by `SmartArgs.get_return_value`:
`noneVal` for `void`, 32-bit address for pointers, decoded integers
for the integer families, raw bytes for the float families (IEEE-754
reinterpretation kept symbolic), and `typed` for the
`reverse_type_map` dtype conversion of the 32-bit integer path. -/
inductive RetVal
  | noneVal
  | u32 (v : Nat)
  | u64 (v : Nat)
  | i64 (v : Int)
  | f32raw (bytes : List Nat)
  | f64raw (bytes : List Nat)
  | typed (dtype : String) (v : Int)
  | i32 (v : Int)
deriving DecidableEq, Repr

/-- Twos-complement reading of a 4-byte little-endian value
(`struct.unpack` format `<i`). -/
def decodeI32 (bytes : List Nat) : Int :=
  let u := fromLEBytes bytes
  if u < 2 ^ 31 then (u : Int) else (u : Int) - 2 ^ 32

/-- Twos-complement reading of an 8-byte little-endian value
(`struct.unpack` format `<q`). -/
def decodeI64 (bytes : List Nat) : Int :=
  let u := fromLEBytes bytes
  if u < 2 ^ 63 then (u : Int) else (u : Int) - 2 ^ 64

/-- `SmartArgs.get_return_value(args_addr)`.  `rtm` is the per-instance
`reverse_type_map` (loaded from the type-map config plus the alias
table) and `mem` models the device memory returned by
`self.dm.read_memory` (the device exchange treated as an oracle).
Returns the list of READ_MEM requests `(address, size)` issued and the
typed value: `void` returns `noneVal` with no read; otherwise the read
offset is hardcoded to slots 30-31 (64-bit, 8 bytes at offset 120) or
slot 31 (32-bit, 4 bytes at offset 124) of the default 32-slot layout,
and the bytes are reinterpreted per the declared return type. -/
def get_return_value (rtm : String → Option String) (returnType : String)
    (argsAddr : Nat) (mem : Nat → Nat → List Nat) : List (Nat × Nat) × RetVal :=
  if returnType = "void" then
    ([], RetVal.noneVal)
  else
    let is64 := is64BitType returnType
    let req : Nat × Nat :=
      if is64 then (argsAddr + 30 * 4, 8) else (argsAddr + 31 * 4, 4)
    let raw := mem req.1 req.2
    let v :=
      if containsSub "*" returnType then
        RetVal.u32 (fromLEBytes raw)
      else if is64 then
        if containsSub "double" returnType then
          RetVal.f64raw raw
        else if containsSub "unsigned" returnType || containsSub "uint" returnType then
          RetVal.u64 (fromLEBytes raw)
        else
          RetVal.i64 (decodeI64 raw)
      else if containsSub "float" returnType then
        RetVal.f32raw raw
      else
        match rtm returnType with
        | some d => RetVal.typed d (decodeI32 raw)
        | none => RetVal.i32 (decodeI32 raw)
    ([req], v)

/-! ## Per-call flow (`runtime/remote_function.py`)

The device exchanges made during one smart-args call are modelled by
an oracle deciding the outcome of each device operation, and the call
produces a trace of events so that "cleanup runs exactly once" and
"k frees are attempted" are statements about the trace. -/

/-- One observable device-side event of a smart-args call. -/
inductive Ev
  | allocCmd
  | writeCmd
  | execCmd
  | readCmd
  | freeAttempt (addr : Nat)
  | cleanupRun
deriving DecidableEq, Repr

/-- Oracle for the device exchanges of one call: result of the n-th
ALLOC issued during `pack` (`none` models `allocate` raising), whether
the n-th pointer-array WRITE_MEM raises, whether the args-blob write,
the EXEC, or the return-value READ_MEM raises. -/
structure Oracle where
  allocResult : Nat → Option Nat
  writeFails : Nat → Bool
  argsWriteFails : Bool
  execFails : Bool
  readFails : Bool

/-- The mutable per-call state of a `SmartArgs` instance during `pack`:
`self.allocations`, `self.tracked_arrays` (just the device addresses),
the trace so far, and counters indexing the oracle. -/
structure PackSt where
  allocs : List Nat
  tracked : List Nat
  evs : List Ev
  nAlloc : Nat
  nWrite : Nat
deriving Repr

/-- The fresh state of a per-call `SmartArgs` handler. -/
def initPackSt : PackSt :=
  { allocs := [], tracked := [], evs := [], nAlloc := 0, nWrite := 0 }

/-- A host argument: an integer scalar, or a NumPy array given by its
flattened bytes together with the outcome of the dtype-compatibility
check of `_handle_pointer` (which runs before any device
operation). -/
inductive HostArg
  | scalar (v : Int)
  | array (bytes : List Nat) (dtypeOk : Bool)
deriving DecidableEq, Repr

/-- The argument loop of `SmartArgs.pack`: for a pointer parameter,
require an array (else `TypeError`), run the dtype check, ALLOC
(recording the address in `self.allocations` on success, raising on
failure), WRITE_MEM the array bytes (raising on failure, with the
address already recorded), and track the array for sync-back when
enabled; for a value parameter, require a scalar and pack it with
`_handle_value`. -/
def packArgs (o : Oracle) (syncEnabled : Bool) :
    List (HostArg × Param) → PackSt → PackSt × Except PackError (List ValBytes)
  | [], s => (s, Except.ok [])
  | (arg, p) :: rest, s =>
    if p.category = "pointer" then
      match arg with
      | HostArg.scalar _ => (s, Except.error PackError.typeMismatch)
      | HostArg.array _ ok =>
        if !ok then (s, Except.error PackError.typeMismatch)
        else
          let s1 : PackSt :=
            { s with evs := s.evs ++ [Ev.allocCmd], nAlloc := s.nAlloc + 1 }
          match o.allocResult s.nAlloc with
          | none => (s1, Except.error PackError.allocFailed)
          | some addr =>
            let s2 : PackSt :=
              { s1 with allocs := s1.allocs ++ [addr],
                        evs := s1.evs ++ [Ev.writeCmd],
                        nWrite := s1.nWrite + 1 }
            if o.writeFails s.nWrite then (s2, Except.error PackError.writeFailed)
            else
              let s3 : PackSt :=
                if syncEnabled then { s2 with tracked := s2.tracked ++ [addr] } else s2
              match packArgs o syncEnabled rest s3 with
              | (sr, r) => (sr, r.map (fun l => ValBytes.raw (toLEBytes addr 4) :: l))
    else
      match arg with
      | HostArg.array _ _ => (s, Except.error PackError.typeMismatch)
      | HostArg.scalar v =>
        match handle_value p.type v with
        | Except.error e => (s, Except.error e)
        | Except.ok vb =>
          match packArgs o syncEnabled rest s with
          | (sr, r) => (sr, r.map (fun l => vb :: l))

/-- `SmartArgs.pack(*args)`: arity check against the signature, then
the argument loop starting from a fresh per-call state. -/
def pack (o : Oracle) (syncEnabled : Bool) (sig : Signature) (args : List HostArg) :
    PackSt × Except PackError (List ValBytes) :=
  if args.length ≠ sig.parameters.length then
    (initPackSt, Except.error PackError.arityMismatch)
  else
    packArgs o syncEnabled (args.zip sig.parameters) initPackSt

/-- The events of `SmartArgs.cleanup()`: one entry marker, then one
FREE attempt per recorded allocation — each attempt is wrapped in its
own `try`/`except`, so per-address failures never stop the later
frees and every recorded address is attempted exactly once. -/
def cleanupEvs (s : PackSt) : List Ev :=
  Ev.cleanupRun :: s.allocs.map (fun a => Ev.freeAttempt a)

/-- The READ_MEM events of `SmartArgs.sync_back()`: nothing when sync
is disabled or no arrays are tracked, else one read per tracked array
(per-array failures are logged and swallowed, so every tracked array
is read). -/
def syncEvs (s : PackSt) (syncEnabled : Bool) : List Ev :=
  if syncEnabled then s.tracked.map (fun _ => Ev.readCmd) else []

/-- The smart-args branch of `RemoteFunction.__call__`: pack, write
the args blob, execute, sync back, read the return value — all inside
`try`, with `handler.cleanup()` in the `finally` block, so every exit
path (normal or raising at any stage) appends the cleanup events
exactly once. -/
def remoteCall (o : Oracle) (syncEnabled : Bool) (sig : Signature) (args : List HostArg)
    (rtm : String → Option String) (argsAddr : Nat) (mem : Nat → Nat → List Nat) :
    List Ev × Except PackError RetVal :=
  match pack o syncEnabled sig args with
  | (s, Except.error e) => (s.evs ++ cleanupEvs s, Except.error e)
  | (s, Except.ok _) =>
    let evW := s.evs ++ [Ev.writeCmd]
    if o.argsWriteFails then
      (evW ++ cleanupEvs s, Except.error PackError.writeFailed)
    else
      let evX := evW ++ [Ev.execCmd]
      if o.execFails then
        (evX ++ cleanupEvs s, Except.error PackError.execFailed)
      else
        let evS := evX ++ syncEvs s syncEnabled
        let ret := get_return_value rtm sig.return_type argsAddr mem
        let evR := evS ++ ret.1.map (fun _ => Ev.readCmd)
        if o.readFails && !ret.1.isEmpty then
          (evR ++ cleanupEvs s, Except.error PackError.readFailed)
        else
          (evR ++ cleanupEvs s, Except.ok ret.2)

/-- Recognizer for FREE-attempt events. -/
def isFreeAttempt : Ev → Bool
  | Ev.freeAttempt _ => true
  | _ => false

/-! ## Loaded-function handle (`p4jit.py`, class `JITFunction`) -/

/-- The lifecycle-relevant state of a `JITFunction`: the valid flag
and the two device allocations it owns. -/
structure JITFn where
  valid : Bool
  codeAddr : Nat
  argsAddr : Nat
deriving DecidableEq, Repr

/-- `JITFunction.free()`: return immediately when already invalid;
otherwise attempt `free(code_addr)` then `free(args_addr)` inside a
single `try` block (`freeOk addr = false` models the device free
raising) — so if the code free raises, the args free is never
attempted — swallow the exception, and mark the handle invalid.
Returns the new handle state and the list of addresses whose free was
attempted, in order. -/
def jitFree (freeOk : Nat → Bool) (f : JITFn) : JITFn × List Nat :=
  if !f.valid then (f, [])
  else if freeOk f.codeAddr then
    ({ f with valid := false }, [f.codeAddr, f.argsAddr])
  else
    ({ f with valid := false }, [f.codeAddr])

/-- Outcome of `JITFunction.__call__` before delegation. -/
inductive CallOutcome
  | releasedError
  | delegated
deriving DecidableEq, Repr

/-- `JITFunction.__call__`: fail fast with `RuntimeError` ("has been
freed") when invalid, else delegate to the persistent
`RemoteFunction`. -/
def jitCall (f : JITFn) : CallOutcome :=
  if !f.valid then CallOutcome.releasedError else CallOutcome.delegated

/-- Contiguity of a frame list starting at a given address: each frame
starts exactly where the previous one ended. -/
def contiguousFromB : Nat → List WriteFrame → Bool
  | _, [] => true
  | a, f :: rest => decide (f.addr = a) && contiguousFromB (a + f.data.length) rest

/-- An event that is neither a FREE attempt nor the cleanup marker
(the only events `pack`, the blob write, exec, sync-back and the
return read can produce). -/
def cleanEv (e : Ev) : Bool :=
  !isFreeAttempt e && !decide (e = Ev.cleanupRun)

/-!
# Theorems

General lemmas about the embedded operations, then one theorem per
claim (with counterexamples and witnesses where applicable).
-/

/-- The chunk loop reproduces the payload: concatenating the emitted
chunks gives back the input, for any sufficient fuel. -/
theorem writeChunksGo_join (fuel : Nat) :
    ∀ (addr : Nat) (data : List Nat), data.length ≤ fuel →
      ((writeChunksGo fuel addr data).map WriteFrame.data).flatten = data := by
  induction fuel with
  | zero =>
    intro addr data h
    have hd : data = [] := List.eq_nil_of_length_eq_zero (Nat.le_zero.mp h)
    subst hd
    rfl
  | succ n ih =>
    intro addr data h
    cases data with
    | nil => rfl
    | cons d rest =>
      have hc : 1 ≤ CHUNK_SIZE := by decide
      have hlen : (List.drop CHUNK_SIZE (d :: rest)).length ≤ n := by
        simp only [List.length_drop, List.length_cons]
        simp only [List.length_cons] at h
        omega
      simp only [writeChunksGo, List.map_cons, List.flatten_cons]
      rw [ih _ _ hlen]
      exact List.take_append_drop CHUNK_SIZE (d :: rest)

/-- The chunk loop emits contiguous, non-overlapping frames: each
chunk starts at the address where the previous chunk ended. -/
theorem writeChunksGo_contiguous (fuel : Nat) :
    ∀ (addr : Nat) (data : List Nat),
      contiguousFromB addr (writeChunksGo fuel addr data) = true := by
  induction fuel with
  | zero => intro addr data; rfl
  | succ n ih =>
    intro addr data
    cases data with
    | nil => rfl
    | cons d rest =>
      simp only [writeChunksGo, contiguousFromB]
      rw [ih]
      simp

/-- Every chunk the loop emits is at most `CHUNK_SIZE` bytes. -/
theorem writeChunksGo_chunk_le (fuel : Nat) :
    ∀ (addr : Nat) (data : List Nat),
      (writeChunksGo fuel addr data).all
        (fun f => decide (f.data.length ≤ CHUNK_SIZE)) = true := by
  induction fuel with
  | zero => intro addr data; rfl
  | succ n ih =>
    intro addr data
    cases data with
    | nil => rfl
    | cons d rest =>
      simp only [writeChunksGo, List.all_cons, Bool.and_eq_true, decide_eq_true_eq]
      refine ⟨?_, ih _ _⟩
      simp [List.length_take]

/-- A nonempty payload produces at least one frame. -/
theorem writeChunks_ne_nil (addr : Nat) (data : List Nat) (h : data ≠ []) :
    writeChunks addr data ≠ [] := by
  unfold writeChunks
  cases data with
  | nil => exact absurd rfl h
  | cons d rest => simp [writeChunksGo]

/-- C10: for every signature whose return type is `void`,
`SmartArgs.get_return_value` returns `None` and issues no READ_MEM
request. -/
theorem C10_void_return_no_read (rtm : String → Option String) (argsAddr : Nat)
    (mem : Nat → Nat → List Nat) :
    get_return_value rtm "void" argsAddr mem = ([], RetVal.noneVal) := by
  rfl

/-- C9: `free(addr)` on an untracked address fails with
`UnknownAllocation` and sends no FREE command; on a tracked address it
sends FREE, removing the record only when the exchange succeeds, and
retains the record when the exchange raises. -/
theorem C9_free_table_discipline (st : DMState) (sendOk : Bool) (addr : Nat) :
    (lookupAlloc st addr = none →
      dmFree st sendOk addr = (st, [], some DMError.unknownAllocation)) ∧
    ((lookupAlloc st addr).isSome = true → sendOk = true →
      dmFree st sendOk addr =
        ({ st with allocations := st.allocations.filter (fun p => p.1 ≠ addr) },
          [addr], none)) ∧
    ((lookupAlloc st addr).isSome = true → sendOk = false →
      dmFree st sendOk addr = (st, [addr], some DMError.deviceError)) := by
  refine ⟨?_, ?_, ?_⟩
  · intro h
    unfold dmFree
    rw [h]
    rfl
  · intro h hs
    subst hs
    unfold dmFree
    have hn : (lookupAlloc st addr).isNone = false := by
      rw [Option.isNone_eq_false_iff]
      exact h
    rw [hn]
    rfl
  · intro h hs
    subst hs
    unfold dmFree
    have hn : (lookupAlloc st addr).isNone = false := by
      rw [Option.isNone_eq_false_iff]
      exact h
    rw [hn]
    rfl

/-- Witness for C9 at concrete inputs: a failing FREE exchange retains
the single record, and an untracked address is rejected without a
FREE. -/
theorem C9_free_table_discipline_witness :
    dmFree (DMState.mk [(5, AllocInfo.mk 16 0 0)] none) false 5 =
      (DMState.mk [(5, AllocInfo.mk 16 0 0)] none, [5], some DMError.deviceError) ∧
    dmFree (DMState.mk [] none) true 9 =
      (DMState.mk [] none, [], some DMError.unknownAllocation) :=
  ⟨(C9_free_table_discipline (DMState.mk [(5, AllocInfo.mk 16 0 0)] none) false 5).2.2
      (by decide) rfl,
   (C9_free_table_discipline (DMState.mk [] none) true 9).1 (by decide)⟩

/-- C2: when the target range of a non-skipping `write_memory` or
`read_memory` is not wholly inside any single allocation record, the
operation fails with the bounds violation and issues no WRITE_MEM or
READ_MEM. -/
theorem C2_bounds_enforcement (st : DMState) (addr n : Nat) (data : List Nat)
    (hlen : data.length = n)
    (h : ∀ p ∈ st.allocations,
      ¬ Set.Ico addr (addr + n) ⊆ Set.Ico p.1 (p.1 + p.2.size)) :
    write_memory st addr data false = ([], some DMError.boundsViolation) ∧
    read_memory st addr n false = (none, some DMError.boundsViolation) := by
  have hbv : boundsValid st addr n = false := by
    by_contra hb
    rw [Bool.not_eq_false] at hb
    obtain ⟨p, hp, hr⟩ := List.any_eq_true.mp hb
    unfold rangeInAlloc at hr
    simp only [Bool.and_eq_true, decide_eq_true_eq] at hr
    exact h p hp (Set.Ico_subset_Ico (by omega) (by omega))
  constructor
  · unfold write_memory
    rw [hlen, hbv]
    rfl
  · unfold read_memory
    rw [hbv]
    rfl

/-- Witness for C2: a 1-byte write and read at address 4 against an
empty allocation table fail with the bounds violation and send
nothing. -/
theorem C2_bounds_enforcement_witness :
    write_memory (DMState.mk [] none) 4 [1] false =
      ([], some DMError.boundsViolation) ∧
    read_memory (DMState.mk [] none) 4 1 false =
      (none, some DMError.boundsViolation) :=
  C2_bounds_enforcement (DMState.mk [] none) 4 1 [1] rfl (by simp)

/-- C1 counterexample: with the default capacity 32, a signature of
twenty `double` parameters (two slots each) and an `int` return needs
41 slots — more than 32 — yet `build_with_wrapper` accepts it, because
the code only compares the parameter count (20) against
`args_array_size - 1` (31). -/
theorem C1_counterexample :
    buildAccepts 32 (List.replicate 20 (Param.mk "x" "double" "value")) = true ∧
    totalSlotCount (List.replicate 20 (Param.mk "x" "double" "value")) "int" = 41 ∧
    (32 : Nat) < 41 := by
  decide

/-- C1 amended: the build is rejected exactly when the number of
parameters exceeds `args_array_size - 1` — each parameter counts as
one regardless of width, and one slot is reserved for the return value
regardless of its width — i.e. acceptance is equivalent to
`len(parameters) < args_array_size`. -/
theorem C1_accepts_iff_param_count (argsArraySize : Nat) (params : List Param) :
    buildAccepts argsArraySize params = true ↔ params.length < argsArraySize := by
  unfold buildAccepts
  simp only [decide_eq_true_eq]
  omega

set_option maxRecDepth 10000 in
/-- C5 counterexample: with device info reporting `max_payload = 100`,
a 200-byte in-bounds write is sent as a single 200-byte WRITE_MEM
frame — larger than `max_payload` — because `write_memory` always
chunks at the fixed constant `CHUNK_SIZE` and never consults
`device_info`. -/
theorem C5_counterexample :
    write_memory
        (DMState.mk [(0, AllocInfo.mk 256 0 0)]
          (some (DeviceInfo.mk 1 0 100 64 16)))
        0 (List.replicate 200 7) false =
      ([WriteFrame.mk 0 (List.replicate 200 7)], none) ∧
    (DeviceInfo.mk 1 0 100 64 16).maxPayload = 100 ∧
    (List.replicate 200 7).length > 100 := by
  decide

/-- C5 amended: `write_memory` splits every payload into chunks no
larger than the fixed constant `CHUNK_SIZE = 64 * 1024 - 8`, one
WRITE_MEM per chunk, regardless of `device_info` (the result is
unchanged under any device info, including `max_payload`). -/
theorem C5_chunk_size_fixed (st : DMState) (addr : Nat) (data : List Nat)
    (skipBounds : Bool) :
    ((write_memory st addr data skipBounds).1.all
      (fun f => decide (f.data.length ≤ CHUNK_SIZE))) = true ∧
    (∀ di : Option DeviceInfo,
      write_memory (DMState.mk st.allocations di) addr data skipBounds =
        write_memory st addr data skipBounds) := by
  constructor
  · unfold write_memory
    by_cases hb : (!skipBounds && !boundsValid st addr data.length) = true
    · rw [if_pos hb]
      rfl
    · rw [if_neg hb]
      exact writeChunksGo_chunk_le data.length addr data
  · intro di
    rfl

/-- C6 counterexample: an in-bounds `write_memory` of the empty
payload succeeds and sends zero WRITE_MEM frames, not "one or more"
as the claim states. -/
theorem C6_counterexample :
    write_memory (DMState.mk [(0, AllocInfo.mk 4 0 0)] none) 0 [] false =
      ([], none) ∧
    ((write_memory (DMState.mk [(0, AllocInfo.mk 4 0 0)] none) 0 [] false).1.length
      = 0) := by
  decide

/-- C6 amended: for every payload and in-bounds address,
`write_memory` succeeds and produces zero or more WRITE_MEM frames —
one per chunk, hence at least one when the payload is nonempty — whose
payload concatenation equals the input and whose addresses cover
`[addr, addr + |P|)` contiguously without overlap (each frame starts
exactly where the previous one ended), each frame at most
`CHUNK_SIZE` bytes. -/
theorem C6_chunking_equivalence (st : DMState) (addr : Nat) (data : List Nat)
    (hb : boundsValid st addr data.length = true) :
    (write_memory st addr data false).2 = none ∧
    ((write_memory st addr data false).1.map WriteFrame.data).flatten = data ∧
    contiguousFromB addr (write_memory st addr data false).1 = true ∧
    (data ≠ [] → (write_memory st addr data false).1 ≠ []) ∧
    ((write_memory st addr data false).1.all
      (fun f => decide (f.data.length ≤ CHUNK_SIZE))) = true := by
  have hw : write_memory st addr data false = (writeChunks addr data, none) := by
    unfold write_memory
    rw [hb]
    rfl
  rw [hw]
  refine ⟨rfl, ?_, ?_, ?_, ?_⟩
  · exact writeChunksGo_join data.length addr data (Nat.le_refl _)
  · exact writeChunksGo_contiguous data.length addr data
  · intro hne
    exact writeChunks_ne_nil addr data hne
  · exact writeChunksGo_chunk_le data.length addr data

/-- Witness for C6 at a concrete input: a 3-byte in-bounds write is
reassembled exactly from the frames sent. -/
theorem C6_chunking_equivalence_witness :
    ((write_memory (DMState.mk [(0, AllocInfo.mk 8 0 0)] none) 0 [1, 2, 3]
        false).1.map WriteFrame.data).flatten = [1, 2, 3] ∧
    contiguousFromB 0
      (write_memory (DMState.mk [(0, AllocInfo.mk 8 0 0)] none) 0 [1, 2, 3]
        false).1 = true :=
  ⟨(C6_chunking_equivalence (DMState.mk [(0, AllocInfo.mk 8 0 0)] none) 0 [1, 2, 3]
      (by decide)).2.1,
   (C6_chunking_equivalence (DMState.mk [(0, AllocInfo.mk 8 0 0)] none) 0 [1, 2, 3]
      (by decide)).2.2.1⟩

/-- C3 counterexample: with a metadata slot-buffer length of 33 and a
32-bit `int` return, the metadata places the return value at slot 32
(byte offset 128), but `get_return_value` reads 4 bytes at byte offset
124 — the trailing slot of the default 32-slot layout — ignoring the
recorded length. -/
theorem C3_counterexample :
    (get_return_value (fun _ => none) "int" 0 (fun _ n => List.replicate n 0)).1 =
      [(124, 4)] ∧
    returnSlot 33 "int" = 32 ∧
    (4 * (33 - 1) : Nat) = 128 ∧
    (124 : Nat) ≠ 128 := by
  decide

/-- C3 amended: for every non-void return type,
`SmartArgs.get_return_value` issues exactly one READ_MEM at the fixed
byte offset 124 (32-bit return, 4 bytes, slot 31) or 120 (64-bit
return, 8 bytes, slots 30-31) past `args_addr` — i.e. the trailing
slot(s) of the default 32-slot layout, agreeing with the metadata
layout exactly when the recorded slot-buffer length is 32 — and
reinterprets the bytes according to the declared return type. -/
theorem C3_return_read_fixed_offset (rt : String) (h : rt ≠ "void")
    (argsAddr : Nat) (rtm : String → Option String) (mem : Nat → Nat → List Nat) :
    (get_return_value rtm rt argsAddr mem).1 =
      [(argsAddr + 4 * (32 - returnSlotCount rt), 4 * returnSlotCount rt)] := by
  unfold get_return_value returnSlotCount
  rw [if_neg h]
  by_cases h64 : is64BitType rt = true
  · simp [h64]
  · rw [Bool.not_eq_true] at h64
    simp [h64]

/-- Witness for C3 at a concrete input: an `int` return is read with
one 4-byte READ_MEM at offset 124. -/
theorem C3_return_read_fixed_offset_witness :
    (get_return_value (fun _ => none) "int" 7 (fun _ n => List.replicate n 0)).1 =
      [(7 + 4 * (32 - returnSlotCount "int"), 4 * returnSlotCount "int")] :=
  C3_return_read_fixed_offset "int" (by decide) 7 (fun _ => none)
    (fun _ n => List.replicate n 0)

/-- C4 counterexample: `uint32` is handled by the 32-bit integer path,
which packs with the signed format `<i`; the in-range unsigned value
`2^31` therefore raises a `struct.error` instead of producing its
4-byte unsigned little-endian encoding. -/
theorem C4_counterexample :
    handle_value "uint32" ((2 : Int) ^ 31) = Except.error PackError.structRange ∧
    (0 : Int) ≤ (2 : Int) ^ 31 ∧ ((2 : Int) ^ 31) < (2 : Int) ^ 32 :=
  ⟨rfl, by decide, by decide⟩

/-- C4 amended: `_handle_value` packs 32-bit integer parameters —
`uint32` included — with the signed 32-bit format, ignoring the
declared signedness: arguments in `[0, 2^31)` succeed and emit the
4-byte little-endian encoding of the value (identical to the unsigned
encoding there), while arguments in `[2^31, 2^32)` raise a packing
range error.  (64-bit integer types do honor signedness, and float
types use the float formats.) -/
theorem C4_uint32_signed_packing (v : Int) :
    (0 ≤ v → v < 2 ^ 31 →
      handle_value "uint32" v = Except.ok (ValBytes.raw (toLEBytes v.toNat 4))) ∧
    (2 ^ 31 ≤ v → v < 2 ^ 32 →
      handle_value "uint32" v = Except.error PackError.structRange) := by
  have h64 : is64BitType "uint32" = false := by decide
  have hf : containsSub "float" "uint32" = false := by decide
  constructor
  · intro h0 h1
    unfold handle_value
    rw [h64, hf]
    simp only [Bool.false_eq_true, if_false]
    have hc : (decide (-(2 ^ 31 : Int) ≤ v) && decide (v < 2 ^ 31)) = true := by
      simp only [Bool.and_eq_true, decide_eq_true_eq]
      omega
    rw [if_pos hc]
    have hmod : v % (2 ^ 32 : Int) = v := Int.emod_eq_of_lt h0 (by omega)
    rw [hmod]
  · intro h0 h1
    unfold handle_value
    rw [h64, hf]
    simp only [Bool.false_eq_true, if_false]
    have hc : (decide (-(2 ^ 31 : Int) ≤ v) && decide (v < 2 ^ 31)) = false := by
      simp only [Bool.and_eq_false_iff, decide_eq_false_iff_not]
      right
      omega
    rw [if_neg (by rw [hc]; exact Bool.false_ne_true)]

/-- Witness for C4 at concrete inputs: 7 packs to its little-endian
bytes, `2^31` raises. -/
theorem C4_uint32_signed_packing_witness :
    handle_value "uint32" 7 = Except.ok (ValBytes.raw (toLEBytes (7 : Int).toNat 4)) ∧
    handle_value "uint32" ((2 : Int) ^ 31) = Except.error PackError.structRange :=
  ⟨(C4_uint32_signed_packing 7).1 (by decide) (by decide),
   (C4_uint32_signed_packing ((2 : Int) ^ 31)).2 (by decide) (by decide)⟩

/-- Lists of clean events contain no cleanup marker and no FREE
attempt. -/
theorem counts_of_all_clean (l : List Ev) (h : l.all cleanEv = true) :
    l.count Ev.cleanupRun = 0 ∧ l.countP isFreeAttempt = 0 := by
  rw [List.all_eq_true] at h
  constructor
  · rw [List.count_eq_zero]
    intro hmem
    have hc := h _ hmem
    simp [cleanEv, isFreeAttempt] at hc
  · rw [List.countP_eq_zero]
    intro a hmem
    have hc := h _ hmem
    simp only [cleanEv, Bool.and_eq_true, Bool.not_eq_true'] at hc
    simp [hc.1]

/-- Appending clean event lists stays clean. -/
theorem all_clean_append (l1 l2 : List Ev) (h1 : l1.all cleanEv = true)
    (h2 : l2.all cleanEv = true) : (l1 ++ l2).all cleanEv = true := by
  rw [List.all_append, h1, h2]
  rfl

/-- A constant-`readCmd` image is clean. -/
theorem map_const_readCmd_clean {α : Type} (l : List α) :
    (l.map (fun _ => Ev.readCmd)).all cleanEv = true := by
  rw [List.all_eq_true]
  intro e he
  obtain ⟨a, _, rfl⟩ := List.mem_map.mp he
  rfl

/-- The sync-back events are clean. -/
theorem syncEvs_clean (s : PackSt) (sync : Bool) :
    (syncEvs s sync).all cleanEv = true := by
  unfold syncEvs
  split
  · exact map_const_readCmd_clean _
  · rfl

/-- A trace that is a clean prefix followed by the cleanup events
contains the cleanup marker exactly once and one FREE attempt per
recorded allocation. -/
theorem count_trace_with_cleanup (pre : List Ev) (s : PackSt)
    (h : pre.all cleanEv = true) :
    ((pre ++ cleanupEvs s).count Ev.cleanupRun = 1) ∧
    ((pre ++ cleanupEvs s).countP isFreeAttempt = s.allocs.length) := by
  obtain ⟨h1, h2⟩ := counts_of_all_clean pre h
  have hmap0 : (s.allocs.map (fun a => Ev.freeAttempt a)).count Ev.cleanupRun = 0 := by
    rw [List.count_eq_zero]
    intro hmem
    obtain ⟨a, _, hEq⟩ := List.mem_map.mp hmem
    exact absurd hEq (by simp)
  have hmaplen : (s.allocs.map (fun a => Ev.freeAttempt a)).countP isFreeAttempt =
      s.allocs.length := by
    rw [show s.allocs.length = (s.allocs.map (fun a => Ev.freeAttempt a)).length from
      (List.length_map _ _).symm]
    rw [List.countP_eq_length]
    intro e he
    obtain ⟨a, _, rfl⟩ := List.mem_map.mp he
    rfl
  constructor
  · rw [List.count_append, h1, cleanupEvs, List.count_cons, hmap0]
    simp
  · rw [List.countP_append, h2, cleanupEvs, List.countP_cons, hmaplen]
    simp [isFreeAttempt]

/-- The argument loop of `pack` only appends ALLOC and WRITE_MEM
events: starting from a clean trace, the trace stays clean. -/
theorem packArgs_evs_clean (o : Oracle) (sync : Bool) :
    ∀ (l : List (HostArg × Param)) (s : PackSt), s.evs.all cleanEv = true →
      (packArgs o sync l s).1.evs.all cleanEv = true := by
  intro l
  induction l with
  | nil =>
    intro s hs
    exact hs
  | cons head rest ih =>
    intro s hs
    obtain ⟨arg, p⟩ := head
    have hs1 : (s.evs ++ [Ev.allocCmd]).all cleanEv = true :=
      all_clean_append _ _ hs rfl
    have hs2 : ((s.evs ++ [Ev.allocCmd]) ++ [Ev.writeCmd]).all cleanEv = true :=
      all_clean_append _ _ hs1 rfl
    cases arg with
    | scalar v =>
      simp only [packArgs]
      split
      · exact hs
      · cases hhv : handle_value p.type v with
        | error e =>
          simp only [hhv]
          exact hs
        | ok vb =>
          simp only [hhv]
          exact ih s hs
    | array bs ok =>
      simp only [packArgs]
      split
      · cases ok with
        | false => simpa using hs
        | true =>
          simp only [Bool.not_true]
          rw [if_neg (by simp)]
          cases hres : o.allocResult s.nAlloc with
          | none =>
            simp only [hres]
            exact hs1
          | some addr =>
            simp only [hres]
            by_cases hw : o.writeFails s.nWrite = true
            · rw [if_pos hw]
              exact hs2
            · rw [if_neg hw]
              exact ih _ (by cases sync <;> simpa using hs2)
      · exact hs

/-- C7: on every path of the smart-args call — packing, the argument
write, execution, sync-back or the return read raising included — the
cleanup of the per-call handler runs exactly once; and when `pack` raised
after recording `k` device allocations, cleanup attempts exactly `k`
frees, one per recorded allocation. -/
theorem C7_cleanup_exactly_once (o : Oracle) (sync : Bool) (sig : Signature)
    (args : List HostArg) (rtm : String → Option String) (argsAddr : Nat)
    (mem : Nat → Nat → List Nat) :
    ((remoteCall o sync sig args rtm argsAddr mem).1.count Ev.cleanupRun = 1) ∧
    (∀ (s : PackSt) (e : PackError),
      pack o sync sig args = (s, Except.error e) →
      (remoteCall o sync sig args rtm argsAddr mem).1.countP isFreeAttempt =
        s.allocs.length) := by
  have hclean : (pack o sync sig args).1.evs.all cleanEv = true := by
    unfold pack
    split
    · rfl
    · exact packArgs_evs_clean o sync _ initPackSt rfl
  rcases hpk : pack o sync sig args with ⟨s, r⟩
  rw [hpk] at hclean
  cases r with
  | error e =>
    have hres : remoteCall o sync sig args rtm argsAddr mem =
        (s.evs ++ cleanupEvs s, Except.error e) := by
      unfold remoteCall
      rw [hpk]
    rw [hres]
    have hc := count_trace_with_cleanup s.evs s hclean
    refine ⟨hc.1, ?_⟩
    intro s2 e2 heq
    have hse : s = s2 := congrArg Prod.fst heq
    rw [← hse]
    exact hc.2
  | ok blob =>
    have hcW : (s.evs ++ [Ev.writeCmd]).all cleanEv = true :=
      all_clean_append _ _ hclean rfl
    have hcX : ((s.evs ++ [Ev.writeCmd]) ++ [Ev.execCmd]).all cleanEv = true :=
      all_clean_append _ _ hcW rfl
    have hcS : (((s.evs ++ [Ev.writeCmd]) ++ [Ev.execCmd]) ++ syncEvs s sync).all
        cleanEv = true :=
      all_clean_append _ _ hcX (syncEvs_clean s sync)
    have hcR : ((((s.evs ++ [Ev.writeCmd]) ++ [Ev.execCmd]) ++ syncEvs s sync) ++
        (get_return_value rtm sig.return_type argsAddr mem).1.map
          (fun _ => Ev.readCmd)).all cleanEv = true :=
      all_clean_append _ _ hcS (map_const_readCmd_clean _)
    constructor
    · unfold remoteCall
      rw [hpk]
      dsimp only
      by_cases hW : o.argsWriteFails = true
      · rw [if_pos hW]
        exact (count_trace_with_cleanup _ s hcW).1
      · rw [if_neg hW]
        by_cases hX : o.execFails = true
        · rw [if_pos hX]
          exact (count_trace_with_cleanup _ s hcX).1
        · rw [if_neg hX]
          by_cases hR : (o.readFails &&
              !(get_return_value rtm sig.return_type argsAddr mem).1.isEmpty) = true
          · rw [if_pos hR]
            exact (count_trace_with_cleanup _ s hcR).1
          · rw [if_neg hR]
            exact (count_trace_with_cleanup _ s hcR).1
    · intro s2 e2 heq
      exact absurd (congrArg Prod.snd heq) (by simp)

/-- Witness for C7 at a concrete call: one pointer argument whose
device write fails after a successful allocation — cleanup runs once
and attempts exactly one free. -/
theorem C7_cleanup_exactly_once_witness :
    ((remoteCall (Oracle.mk (fun _ => some 100) (fun _ => true) false false false)
        true (Signature.mk "f" "int" [Param.mk "a" "int*" "pointer"])
        [HostArg.array [1, 2, 3] true] (fun _ => none) 0
        (fun _ n => List.replicate n 0)).1.count Ev.cleanupRun = 1) ∧
    ((remoteCall (Oracle.mk (fun _ => some 100) (fun _ => true) false false false)
        true (Signature.mk "f" "int" [Param.mk "a" "int*" "pointer"])
        [HostArg.array [1, 2, 3] true] (fun _ => none) 0
        (fun _ n => List.replicate n 0)).1.countP isFreeAttempt = 1) := by
  have h := C7_cleanup_exactly_once
    (Oracle.mk (fun _ => some 100) (fun _ => true) false false false)
    true (Signature.mk "f" "int" [Param.mk "a" "int*" "pointer"])
    [HostArg.array [1, 2, 3] true] (fun _ => none) 0
    (fun _ n => List.replicate n 0)
  refine ⟨h.1, ?_⟩
  have h2 := h.2 (PackSt.mk [100] [] [Ev.allocCmd, Ev.writeCmd] 1 1)
    PackError.writeFailed rfl
  simpa using h2

/-- C8 counterexample: when the device free of the code allocation
raises, `JITFunction.free` — whose two frees sit in a single `try`
block — never attempts the args free: only the code address appears in
the attempted list. -/
theorem C8_counterexample :
    jitFree (fun _ => false) (JITFn.mk true 10 20) = (JITFn.mk false 10 20, [10]) ∧
    (20 : Nat) ∉ [10] := by
  decide

/-- C8 amended: `free` is idempotent and leaves the handle invalid —
a second call performs no device frees — individual free failures are
swallowed, not raised, and any call after `free` fails fast; but the
two frees share one `try` block, so when freeing the code allocation
fails the args free is skipped (only the code free is attempted),
whereas when it succeeds both frees are attempted. -/
theorem C8_free_idempotent_single_try (freeOk : Nat → Bool) (f : JITFn)
    (h : f.valid = true) :
    ((jitFree freeOk f).1.valid = false) ∧
    (jitFree freeOk (jitFree freeOk f).1 = ((jitFree freeOk f).1, [])) ∧
    (freeOk f.codeAddr = true → (jitFree freeOk f).2 = [f.codeAddr, f.argsAddr]) ∧
    (freeOk f.codeAddr = false → (jitFree freeOk f).2 = [f.codeAddr]) ∧
    (jitCall (jitFree freeOk f).1 = CallOutcome.releasedError) := by
  cases hc : freeOk f.codeAddr <;> simp [jitFree, jitCall, h, hc]

/-- Witness for C8 at a concrete handle: freeing twice with a failing
device free frees only on the first call, and the handle rejects
calls. -/
theorem C8_free_idempotent_single_try_witness :
    (jitFree (fun _ => false) (jitFree (fun _ => false) (JITFn.mk true 1 2)).1 =
      ((jitFree (fun _ => false) (JITFn.mk true 1 2)).1, [])) ∧
    (jitCall (jitFree (fun _ => false) (JITFn.mk true 1 2)).1 =
      CallOutcome.releasedError) :=
  ⟨(C8_free_idempotent_single_try (fun _ => false) (JITFn.mk true 1 2) rfl).2.1,
   (C8_free_idempotent_single_try (fun _ => false) (JITFn.mk true 1 2) rfl).2.2.2.2⟩

end P4Jit
